import Mathlib

/-!
Verification development for the LiveSpiff timer daemon.

Shallow embedding of the daemon core:
  * `Timer` and its operations embed the functions of `src/livespiffd.c`
    (`timer_elapsed_us`, `timer_start`, `timer_split`, `timer_start_or_split`,
    `timer_toggle_pause`, `timer_reset`, `apply_run_to_timer`).
  * `LiveSpiffRun`, `run_new_default`, `run_load_json`, `run_to_json_node`
    embed `src/storage.c`.
  * `Daemon` with `handleLoadRun` / `handleReset` embeds the relevant branches
    of `on_method_call` in `src/livespiffd.c`.

Modelling conventions:
  * `g_get_monotonic_time()` reads become explicit `Int` parameters (microseconds);
    each distinct call site gets its own parameter where the C makes two reads.
  * C `gint64` / `int` fields become `Int`.  No value in this program approaches
    the machine widths (monotonic microseconds fit 64 bits for centuries and the
    split counters stay at most one above the segment count), so no `% 2^w`
    wrapping is modelled.
  * File reading and JSON text parsing (`json_parser_load_from_file`) are
    abstracted as a `LoadInput`: an I/O error, a parse error, or a parsed JSON
    document.  The json-glib accessor functions used by `run_load_json`
    (`json_object_get_string_member_with_default`, `json_object_get_array_member`,
    `json_array_get_string_element`) are embedded with their real behaviour,
    including the `g_return_val_if_fail` fall-back values on type mismatches.
  * C strings are nullable, so the `game` and `category` fields are
    `Option String` (`none` = NULL).  Segment entries are never NULL in any code
    path of this repository (`g_strdup` of a non-NULL argument everywhere), so
    `segments` is `List String`.
-/

namespace LiveSpiff

/-- The `TimerState` enum of `livespiffd.c`. -/
inductive TimerState
  | idle
  | running
  | paused
  | finished
deriving DecidableEq, Repr

/-- The `Timer` struct of `livespiffd.c`.  All time fields are microseconds. -/
structure Timer where
  state : TimerState
  start_monotonic_us : Int
  paused_at_us : Int
  total_paused_us : Int
  paused_elapsed_us : Int
  current_split : Int
  split_count : Int
deriving DecidableEq, Repr

/-- The static initialiser of `g_timer` in `livespiffd.c`. -/
def g_timer_init : Timer :=
  { state := .idle
  , start_monotonic_us := 0
  , paused_at_us := 0
  , total_paused_us := 0
  , paused_elapsed_us := 0
  , current_split := 0
  , split_count := 3 }

/-- `timer_elapsed_us` of `livespiffd.c`; `now` is the `g_get_monotonic_time()`
read made in the Running branch. -/
def timer_elapsed_us (t : Timer) (now : Int) : Int :=
  match t.state with
  | .idle => 0
  | .paused => t.paused_elapsed_us
  | .finished => if t.paused_elapsed_us > 0 then t.paused_elapsed_us else 0
  | .running =>
      let raw := now - t.start_monotonic_us
      let adj := raw - t.total_paused_us
      if adj < 0 then 0 else adj

/-- `timer_start` of `livespiffd.c`. -/
def timer_start (t : Timer) (now : Int) : Timer :=
  if t.state ≠ .idle then t
  else
    { t with
        start_monotonic_us := now
      , total_paused_us := 0
      , paused_elapsed_us := 0
      , paused_at_us := 0
      , current_split := 0
      , state := .running }

/-- `timer_split` of `livespiffd.c`.  The elapsed snapshot is taken after the
increment but before the state changes to Finished, exactly as in the C. -/
def timer_split (t : Timer) (now : Int) : Timer :=
  if t.state ≠ .running then t
  else
    let t1 := { t with current_split := t.current_split + 1 }
    if t1.current_split ≥ t1.split_count then
      { t1 with paused_elapsed_us := timer_elapsed_us t1 now, state := .finished }
    else t1

/-- `timer_start_or_split` of `livespiffd.c`. -/
def timer_start_or_split (t : Timer) (now : Int) : Timer :=
  if t.state = .idle then timer_start t now
  else if t.state = .running then timer_split t now
  else t

/-- `timer_toggle_pause` of `livespiffd.c`.  The Running branch makes two
consecutive monotonic-clock reads (`now` feeds the elapsed snapshot, `nowPause`
becomes `paused_at_us`); the Paused branch makes a single read, `now`. -/
def timer_toggle_pause (t : Timer) (now nowPause : Int) : Timer :=
  if t.state = .running then
    { t with
        paused_elapsed_us := timer_elapsed_us t now
      , paused_at_us := nowPause
      , state := .paused }
  else if t.state = .paused then
    { t with
        total_paused_us := t.total_paused_us + (now - t.paused_at_us)
      , paused_at_us := 0
      , state := .running }
  else t

/-- `timer_reset` of `livespiffd.c`. -/
def timer_reset (t : Timer) : Timer :=
  { t with
      state := .idle
    , start_monotonic_us := 0
    , paused_at_us := 0
    , total_paused_us := 0
    , paused_elapsed_us := 0
    , current_split := 0 }

/-- The `LiveSpiffRun` struct of `storage.h`.  `game` and `category` are
nullable C strings. -/
structure LiveSpiffRun where
  game : Option String
  category : Option String
  segments : List String
deriving DecidableEq, Repr

/-- `run_new_default` of `storage.c`. -/
def run_new_default : LiveSpiffRun :=
  { game := some "Game"
  , category := some "Any%"
  , segments := ["Split 1", "Split 2", "Split 3"] }

/-- JSON documents as delivered by json-glib's parser.  Numbers are modelled as
integers; no claim depends on fractional values. -/
inductive Json
  | null
  | jbool (b : Bool)
  | num (n : Int)
  | str (s : String)
  | arr (elems : List Json)
  | obj (members : List (String × Json))
deriving Repr

/-- Member lookup in a `JsonObject`.  json-glib's `json_object_set_member`
replaces an existing member, so when a parsed document carries duplicate keys
the last occurrence wins. -/
def json_object_get_member (members : List (String × Json)) (k : String) :
    Option Json :=
  members.foldl (fun acc m => if m.1 = k then some m.2 else acc) none

/-- `json_object_has_member`. -/
def json_object_has_member (members : List (String × Json)) (k : String) : Bool :=
  (json_object_get_member members k).isSome

/-- json-glib's `json_object_get_string_member_with_default`: a missing or null
member yields the default; a non-value node (array / object) trips a
`g_return_val_if_fail` and also yields the default; a scalar value node that is
not a string reaches `json_node_get_string`, which returns NULL (`none`). -/
def json_object_get_string_member_with_default
    (members : List (String × Json)) (k dflt : String) : Option String :=
  match json_object_get_member members k with
  | none => some dflt
  | some .null => some dflt
  | some (.str s) => some s
  | some (.jbool _) => none
  | some (.num _) => none
  | some (.arr _) => some dflt
  | some (.obj _) => some dflt

/-- json-glib's `json_object_get_array_member`: NULL (here `none`) when the
member is absent, null, or not an array; `json_array_get_length(NULL)` then
returns 0, so the caller sees an empty array. -/
def json_object_get_array_member (members : List (String × Json)) (k : String) :
    Option (List Json) :=
  match json_object_get_member members k with
  | some (.arr xs) => some xs
  | _ => none

/-- json-glib's `json_array_get_string_element` on one element: NULL (`none`)
for a null element, for a non-value node, and for a scalar that is not a
string; the string itself otherwise. -/
def json_array_get_string_element (e : Json) : Option String :=
  match e with
  | .str s => some s
  | _ => none

/-- What `json_parser_load_from_file` hands to the rest of `run_load_json`:
an I/O failure (file unreadable), a parse failure (content not valid JSON), or
the parsed document. -/
inductive LoadInput
  | readError (msg : String)
  | malformed (msg : String)
  | parsed (root : Json)

/-- `run_load_json` of `storage.c`.  Both `json_parser_load_from_file` failure
modes propagate the GError message; a non-object root is rejected; otherwise
fields are read with defaults, a non-array `segments` member contributes zero
elements (see `json_object_get_array_member`), each element is read through
`json_array_get_string_element` with `s ? s : ""`, and an empty segment list
falls back to `["Split 1"]`. -/
def run_load_json (input : LoadInput) : Except String LiveSpiffRun :=
  match input with
  | .readError msg => .error msg
  | .malformed msg => .error msg
  | .parsed root =>
    match root with
    | .obj members =>
        let game := json_object_get_string_member_with_default members "game" "Game"
        let category :=
          json_object_get_string_member_with_default members "category" "Any%"
        let segs0 : List String :=
          if json_object_has_member members "segments" then
            match json_object_get_array_member members "segments" with
            | some xs => xs.map (fun e => (json_array_get_string_element e).getD "")
            | none => []
          else []
        let segs := if segs0 = [] then ["Split 1"] else segs0
        .ok { game := game, category := category, segments := segs }
    | _ => .error "Invalid JSON: root is not an object"

/-- `run_to_json_node` of `storage.c`: keys `game`, `category`, `segments` in
that order, NULL strings written as `""`. -/
def run_to_json_node (r : LiveSpiffRun) : Json :=
  .obj
    [ ("game", .str (r.game.getD ""))
    , ("category", .str (r.category.getD ""))
    , ("segments", .arr (r.segments.map Json.str)) ]

/-- `apply_run_to_timer` of `livespiffd.c`, with the global `g_run` passed
explicitly. -/
def apply_run_to_timer (t : Timer) (run : Option LiveSpiffRun) : Timer :=
  match run with
  | none => t
  | some r =>
      let sc0 : Int := (r.segments.length : Int)
      let sc := if sc0 < 1 then 1 else sc0
      let cs := if t.current_split > sc then 0 else t.current_split
      { t with split_count := sc, current_split := cs }

/-- The daemon's global mutable state: `g_timer` and `g_run`. -/
structure Daemon where
  timer : Timer
  run : Option LiveSpiffRun
deriving DecidableEq, Repr

/-- The state after `main` has built the default run and applied it
(`g_run = run_new_default(); apply_run_to_timer();`). -/
def daemon_init : Daemon :=
  { timer := apply_run_to_timer g_timer_init (some run_new_default)
  , run := some run_new_default }

/-- The `LoadRun` branch of `on_method_call`: on success replace `g_run`,
apply it to the timer, force a reset, and answer `(true, "Run loaded")`; on
failure answer `(false, message)` touching nothing. -/
def handleLoadRun (d : Daemon) (input : LoadInput) :
    Daemon × Bool × String :=
  match run_load_json input with
  | .ok loaded =>
      ( { run := some loaded
        , timer := timer_reset (apply_run_to_timer d.timer (some loaded)) }
      , true, "Run loaded" )
  | .error msg => (d, false, msg)

/-- The `Reset` branch of `on_method_call`: only `timer_reset`, the run is not
touched. -/
def handleReset (d : Daemon) : Daemon :=
  { d with timer := timer_reset d.timer }

/-- The `ElapsedMs` branch of `on_method_call`: microseconds divided by 1000
with C's truncating division. -/
def handleElapsedMs (t : Timer) (now : Int) : Int :=
  Int.tdiv (timer_elapsed_us t now) 1000

/-- `n` successive `StartOrSplit` calls; `clock i` is the monotonic reading
during the `i`-th call. -/
def sosIter (clock : Nat → Int) (t : Timer) : Nat → Timer
  | 0 => t
  | Nat.succ n =>
      sosIter (fun i => clock (i + 1)) (timer_start_or_split t (clock 0)) n

/-- One pause/resume round: `TogglePause` from Running (two consecutive clock
reads `pa`, `pb`) followed by `TogglePause` from Paused at time `r`; a list of
rounds is applied in order. -/
def applyPauses (t : Timer) : List (Int × Int × Int) → Timer
  | [] => t
  | (pa, pb, r) :: rest =>
      applyPauses (timer_toggle_pause (timer_toggle_pause t pa pb) r r) rest

/-- Sum of the completed pause-interval durations: resume instant minus
recorded pause instant (the second clock read of the pausing call). -/
def pauseSum : List (Int × Int × Int) → Int
  | [] => 0
  | (_, pb, r) :: rest => (r - pb) + pauseSum rest

/-- Monotone interleaving of the clock reads of a pause/resume sequence. -/
def pauseChain (prev : Int) : List (Int × Int × Int) → Bool
  | [] => true
  | (pa, pb, r) :: rest =>
      decide (prev ≤ pa) && decide (pa ≤ pb) && decide (pb ≤ r) &&
        pauseChain r rest

/-- The last clock reading of a pause/resume sequence. -/
def chainEnd (prev : Int) : List (Int × Int × Int) → Int
  | [] => prev
  | (_, _, r) :: rest => chainEnd r rest

/-- The inductive strengthening of the claimed timer invariant: the split
count is at least 1, the split index lies between 0 and the split count, the
frozen snapshot is non-negative, and while Running or Paused the split index
is strictly below the split count. -/
def TimerInv (t : Timer) : Prop :=
  1 ≤ t.split_count ∧ 0 ≤ t.current_split ∧
  t.current_split ≤ t.split_count ∧ 0 ≤ t.paused_elapsed_us ∧
  ((t.state = .running ∨ t.state = .paused) →
    t.current_split < t.split_count)

/-! ### Helper lemmas about the individual timer operations -/

lemma timer_split_continue (t : Timer) (now : Int) (ht : t.state = .running)
    (h : t.current_split + 1 < t.split_count) :
    timer_split t now = { t with current_split := t.current_split + 1 } := by
  obtain ⟨st, s1, s2, s3, s4, cs, sc⟩ := t
  simp only at ht h
  subst ht
  simp only [timer_split]
  rw [if_neg (by simp), if_neg (by omega)]

lemma timer_split_finish (t : Timer) (now : Int) (ht : t.state = .running)
    (h : t.current_split + 1 ≥ t.split_count) :
    timer_split t now =
      { t with
          current_split := t.current_split + 1
        , paused_elapsed_us :=
            timer_elapsed_us { t with current_split := t.current_split + 1 } now
        , state := .finished } := by
  obtain ⟨st, s1, s2, s3, s4, cs, sc⟩ := t
  simp only at ht h
  subst ht
  simp only [timer_split]
  rw [if_neg (by simp), if_pos (by omega)]

lemma timer_sos_running (t : Timer) (now : Int) (ht : t.state = .running) :
    timer_start_or_split t now = timer_split t now := by
  simp [timer_start_or_split, ht]

lemma timer_sos_idle (t : Timer) (now : Int) (ht : t.state = .idle) :
    timer_start_or_split t now = timer_start t now := by
  simp [timer_start_or_split, ht]

lemma timer_elapsed_running (t : Timer) (now : Int) (ht : t.state = .running) :
    timer_elapsed_us t now =
      max 0 ((now - t.start_monotonic_us) - t.total_paused_us) := by
  simp only [timer_elapsed_us, ht]
  omega

lemma timer_start_idle (t : Timer) (now : Int) (ht : t.state = .idle) :
    timer_start t now =
      { t with
          start_monotonic_us := now
        , total_paused_us := 0
        , paused_elapsed_us := 0
        , paused_at_us := 0
        , current_split := 0
        , state := .running } := by
  simp [timer_start, ht]

lemma timer_start_not_idle (t : Timer) (now : Int) (ht : t.state ≠ .idle) :
    timer_start t now = t := by
  simp [timer_start, ht]

lemma timer_split_continue_mk (s1 s2 s3 s4 cs sc now : Int)
    (h : cs + 1 < sc) :
    timer_split (Timer.mk .running s1 s2 s3 s4 cs sc) now =
      Timer.mk .running s1 s2 s3 s4 (cs + 1) sc := by
  rw [timer_split_continue _ _ rfl (by simpa using h)]

lemma timer_split_finish_mk (s1 s2 s3 s4 cs sc now : Int)
    (h : cs + 1 ≥ sc) :
    timer_split (Timer.mk .running s1 s2 s3 s4 cs sc) now =
      Timer.mk .finished s1 s2 s3
        (if now - s1 - s3 < 0 then 0 else now - s1 - s3) (cs + 1) sc := by
  rw [timer_split_finish _ _ rfl (by simpa using h)]
  simp [timer_elapsed_us]

lemma sosIter_from_running (k : Nat) :
    ∀ (clock : Nat → Int) (s1 s2 s3 s4 cs sc : Int),
      cs + (k : Int) ≤ sc →
      (sosIter clock (Timer.mk .running s1 s2 s3 s4 cs sc) k).split_count =
        sc ∧
      (sosIter clock (Timer.mk .running s1 s2 s3 s4 cs sc) k).current_split =
        cs + (k : Int) ∧
      (sosIter clock (Timer.mk .running s1 s2 s3 s4 cs sc) k).state =
        (if k = 0 ∨ cs + (k : Int) < sc
          then TimerState.running else TimerState.finished) := by
  induction k with
  | zero =>
      intro clock s1 s2 s3 s4 cs sc _
      simp [sosIter]
  | succ n ih =>
      intro clock s1 s2 s3 s4 cs sc hle
      rw [show sosIter clock (Timer.mk .running s1 s2 s3 s4 cs sc) (n + 1) =
          sosIter (fun i => clock (i + 1))
            (timer_start_or_split (Timer.mk .running s1 s2 s3 s4 cs sc)
              (clock 0)) n from rfl, timer_sos_running _ _ rfl]
      by_cases hlt : cs + 1 < sc
      · rw [timer_split_continue_mk s1 s2 s3 s4 cs sc (clock 0) hlt]
        have ih' := ih (fun i => clock (i + 1)) s1 s2 s3 s4 (cs + 1) sc
          (by push_cast at hle ⊢; omega)
        refine ⟨ih'.1, ?_, ?_⟩
        · rw [ih'.2.1]; push_cast; ring
        · rw [ih'.2.2]
          exact if_congr (by omega) rfl rfl
      · have hn : n = 0 := by omega
        subst hn
        rw [timer_split_finish_mk s1 s2 s3 s4 cs sc (clock 0) (by omega)]
        refine ⟨rfl, ?_, ?_⟩
        · show cs + 1 = cs + (((0 + 1 : Nat) : Int))
          norm_num
        · have hC : ¬ ((0 + 1 : Nat) = 0 ∨ cs + (((0 + 1 : Nat) : Int)) < sc) := by
            omega
          conv_rhs => rw [if_neg hC]
          rfl

lemma timer_start_idle_mk (s1 s2 s3 s4 cs sc now : Int) :
    timer_start (Timer.mk .idle s1 s2 s3 s4 cs sc) now =
      Timer.mk .running now 0 0 0 0 sc := by
  rw [timer_start_idle _ _ rfl]

lemma timer_toggle_pause_running_mk (s1 s2 s3 s4 cs sc n1 n2 : Int) :
    timer_toggle_pause (Timer.mk .running s1 s2 s3 s4 cs sc) n1 n2 =
      Timer.mk .paused s1 n2 s3
        (if n1 - s1 - s3 < 0 then 0 else n1 - s1 - s3) cs sc := by
  simp [timer_toggle_pause, timer_elapsed_us]

lemma timer_toggle_pause_paused_mk (s1 s2 s3 s4 cs sc n1 n2 : Int) :
    timer_toggle_pause (Timer.mk .paused s1 s2 s3 s4 cs sc) n1 n2 =
      Timer.mk .running s1 0 (s3 + (n1 - s2)) s4 cs sc := by
  simp [timer_toggle_pause]

lemma applyPauses_accounting :
    ∀ (l : List (Int × Int × Int)) (s1 s2 s3 s4 cs sc prev : Int),
      pauseChain prev l = true →
      s1 + s3 ≤ prev →
      ∃ s2' s4',
        applyPauses (Timer.mk .running s1 s2 s3 s4 cs sc) l =
          Timer.mk .running s1 s2' (s3 + pauseSum l) s4' cs sc ∧
        s1 + (s3 + pauseSum l) ≤ chainEnd prev l := by
  intro l
  induction l with
  | nil =>
      intro s1 s2 s3 s4 cs sc prev _ hbase
      exact ⟨s2, s4, by simp [applyPauses, pauseSum],
        by simpa [pauseSum, chainEnd] using hbase⟩
  | cons hd rest ih =>
      obtain ⟨pa, pb, r⟩ := hd
      intro s1 s2 s3 s4 cs sc prev hchain hbase
      simp only [pauseChain, Bool.and_eq_true, decide_eq_true_eq] at hchain
      obtain ⟨⟨⟨hpa, hpb⟩, hr⟩, hrest⟩ := hchain
      have hstep : applyPauses (Timer.mk .running s1 s2 s3 s4 cs sc)
          ((pa, pb, r) :: rest) =
        applyPauses (Timer.mk .running s1 0 (s3 + (r - pb))
          (if pa - s1 - s3 < 0 then 0 else pa - s1 - s3) cs sc) rest := by
        rw [show applyPauses (Timer.mk .running s1 s2 s3 s4 cs sc)
            ((pa, pb, r) :: rest) =
          applyPauses (timer_toggle_pause
            (timer_toggle_pause (Timer.mk .running s1 s2 s3 s4 cs sc) pa pb)
            r r) rest from rfl]
        rw [timer_toggle_pause_running_mk, timer_toggle_pause_paused_mk]
      obtain ⟨s2', s4', heq, hend⟩ := ih s1 0 (s3 + (r - pb))
        (if pa - s1 - s3 < 0 then 0 else pa - s1 - s3) cs sc r hrest
        (by omega)
      refine ⟨s2', s4', ?_, ?_⟩
      · rw [hstep, heq]
        simp only [pauseSum]
        congr 1
        ring
      · simp only [pauseSum, chainEnd]
        omega

/-! ### Claim theorems -/

/-- C3: `elapsed()` returns 0 in Idle, `(now - start_instant) -
accumulated_pause_duration` floored at 0 in Running, `frozen_elapsed` in
Paused, and `frozen_elapsed` in Finished (0 when never set, "never set" being
the zero snapshot). -/
theorem elapsed_state_cases (t : Timer) (now : Int)
    (hfe : 0 ≤ t.paused_elapsed_us) :
    (t.state = .idle → timer_elapsed_us t now = 0) ∧
    (t.state = .running →
        timer_elapsed_us t now =
          max 0 ((now - t.start_monotonic_us) - t.total_paused_us)) ∧
    (t.state = .paused → timer_elapsed_us t now = t.paused_elapsed_us) ∧
    (t.state = .finished → timer_elapsed_us t now = t.paused_elapsed_us) := by
  refine ⟨fun hs => ?_, fun hs => timer_elapsed_running t now hs,
    fun hs => ?_, fun hs => ?_⟩ <;> (simp only [timer_elapsed_us, hs]; try omega)

/-- Closed witness for `elapsed_state_cases` at a concrete Finished timer. -/
theorem elapsed_state_cases_witness :
    0 ≤ (Timer.mk .finished 0 0 0 4200 3 3).paused_elapsed_us ∧
    ((Timer.mk .finished 0 0 0 4200 3 3).state = .finished →
      timer_elapsed_us (Timer.mk .finished 0 0 0 4200 3 3) 9999 =
        (Timer.mk .finished 0 0 0 4200 3 3).paused_elapsed_us) :=
  ⟨by decide, (elapsed_state_cases (Timer.mk .finished 0 0 0 4200 3 3) 9999
    (by decide)).2.2.2⟩

/-- C8: `Reset` from any state (and any live Run) yields Idle, zero elapsed
time (hence `ElapsedMs()=0`), split index 0, while keeping `split_count` and
the live Run untouched. -/
theorem reset_yields_idle_baseline (d : Daemon) (now : Int) :
    (handleReset d).timer.state = .idle ∧
    timer_elapsed_us (handleReset d).timer now = 0 ∧
    handleElapsedMs (handleReset d).timer now = 0 ∧
    (handleReset d).timer.current_split = 0 ∧
    (handleReset d).timer.split_count = d.timer.split_count ∧
    (handleReset d).run = d.run := by
  simp [handleReset, timer_reset, timer_elapsed_us, handleElapsedMs]

/-- C4: a failed `LoadRun` answers `(false, message)` and leaves the daemon
state — live Run and complete Timer state — unchanged. -/
theorem loadRun_failure_leaves_state_unchanged
    (d : Daemon) (input : LoadInput) (msg : String)
    (h : run_load_json input = .error msg) :
    handleLoadRun d input = (d, false, msg) := by
  simp [handleLoadRun, h]

/-- Closed witness for `loadRun_failure_leaves_state_unchanged`: an unreadable
file leaves `daemon_init` untouched. -/
theorem loadRun_failure_leaves_state_unchanged_witness :
    run_load_json (.readError "No such file or directory") =
      .error "No such file or directory" ∧
    handleLoadRun daemon_init (.readError "No such file or directory") =
      (daemon_init, false, "No such file or directory") :=
  ⟨rfl, loadRun_failure_leaves_state_unchanged daemon_init
    (.readError "No such file or directory") "No such file or directory" rfl⟩

/-- C5: a successful `LoadRun` installs the new run, sets `split_count` to the
new run's segment count with a minimum of 1, clamps `current_split` to 0 when
it exceeds the new count (inside `apply_run_to_timer`), and forces a full
reset, so the daemon then reports Idle, split 0 and zero elapsed time; loading
a run whose `segments` array is empty yields the single segment `"Split 1"`. -/
theorem loadRun_success_resets (d : Daemon) (input : LoadInput)
    (r : LiveSpiffRun) (h : run_load_json input = .ok r) (now : Int) :
    (handleLoadRun d input).1.run = some r ∧
    (handleLoadRun d input).2.1 = true ∧
    (handleLoadRun d input).1.timer.state = .idle ∧
    (handleLoadRun d input).1.timer.current_split = 0 ∧
    timer_elapsed_us (handleLoadRun d input).1.timer now = 0 ∧
    (handleLoadRun d input).1.timer.split_count =
      max 1 (r.segments.length : Int) ∧
    (∀ t' r', (apply_run_to_timer t' (some r')).current_split =
        if t'.current_split > max 1 ((r'.segments.length : Int)) then 0
        else t'.current_split) ∧
    (∀ members, json_object_get_member members "segments" =
        some (Json.arr []) →
      run_load_json (.parsed (.obj members)) =
        .ok { game := json_object_get_string_member_with_default
                members "game" "Game"
            , category := json_object_get_string_member_with_default
                members "category" "Any%"
            , segments := ["Split 1"] }) := by
  refine ⟨?_, ?_, ?_, ?_, ?_, ?_, ?_, ?_⟩
  · simp [handleLoadRun, h]
  · simp [handleLoadRun, h]
  · simp [handleLoadRun, h, timer_reset]
  · simp [handleLoadRun, h, timer_reset]
  · simp [handleLoadRun, h, timer_reset, timer_elapsed_us]
  · simp only [handleLoadRun, h, timer_reset, apply_run_to_timer]
    omega
  · intro t' r'
    simp only [apply_run_to_timer]
    split_ifs <;> omega
  · intro members hm
    simp [run_load_json, json_object_has_member, json_object_get_array_member,
      hm]

/-- Closed witness for `loadRun_success_resets`: loading the empty JSON object
over `daemon_init`. -/
theorem loadRun_success_resets_witness :
    run_load_json (.parsed (Json.obj [])) =
      .ok { game := some "Game", category := some "Any%"
          , segments := ["Split 1"] } ∧
    (handleLoadRun daemon_init (.parsed (Json.obj []))).1.timer.state =
      .idle ∧
    (handleLoadRun daemon_init (.parsed (Json.obj []))).1.timer.split_count =
      max 1 ((["Split 1"] : List String).length : Int) :=
  ⟨rfl,
    (loadRun_success_resets daemon_init (.parsed (Json.obj []))
      { game := some "Game", category := some "Any%"
      , segments := ["Split 1"] } rfl 0).2.2.1,
    (loadRun_success_resets daemon_init (.parsed (Json.obj []))
      { game := some "Game", category := some "Any%"
      , segments := ["Split 1"] } rfl 0).2.2.2.2.2.1⟩

lemma seg_fallback_ne_nil (X : List String) :
    (if X = [] then ["Split 1"] else X) ≠ [] := by
  split <;> simp_all

/-- C6 counterexample: a JSON object whose `segments` field has the wrong type
(a number) does NOT fail with a `FormatError`; `run_load_json` succeeds,
treating the field as an empty array and substituting `["Split 1"]`.  The
claim's "fails with FormatError if ... a field has the wrong type" is false. -/
theorem run_load_json_wrong_type_succeeds :
    run_load_json (.parsed (Json.obj [("segments", Json.num 5)])) =
      .ok { game := some "Game", category := some "Any%"
          , segments := ["Split 1"] } := rfl

/-- C6 amended: `run_load_json` parses an object with optional `game`
(default `"Game"`), `category` (default `"Any%"`) and `segments` (default
empty, with an empty result replaced by `["Split 1"]`, so the store never
returns a run with zero segments); it fails when the file cannot be read, when
the content is malformed JSON, or when the root is not a JSON object — but a
field of the wrong type does not cause a failure (a non-array `segments` is
treated as empty). -/
theorem run_load_json_failure_modes :
    (∀ msg, run_load_json (.readError msg) = .error msg) ∧
    (∀ msg, run_load_json (.malformed msg) = .error msg) ∧
    (run_load_json (.parsed .null) =
      .error "Invalid JSON: root is not an object") ∧
    (∀ b, run_load_json (.parsed (.jbool b)) =
      .error "Invalid JSON: root is not an object") ∧
    (∀ n, run_load_json (.parsed (.num n)) =
      .error "Invalid JSON: root is not an object") ∧
    (∀ s, run_load_json (.parsed (.str s)) =
      .error "Invalid JSON: root is not an object") ∧
    (∀ xs, run_load_json (.parsed (.arr xs)) =
      .error "Invalid JSON: root is not an object") ∧
    (∀ members, ∃ r, run_load_json (.parsed (.obj members)) = .ok r ∧
      r.segments ≠ [] ∧
      r.game = json_object_get_string_member_with_default
        members "game" "Game" ∧
      r.category = json_object_get_string_member_with_default
        members "category" "Any%" ∧
      (json_object_get_member members "game" = none → r.game = some "Game") ∧
      (json_object_get_member members "category" = none →
        r.category = some "Any%") ∧
      (json_object_get_member members "segments" = none →
        r.segments = ["Split 1"]) ∧
      (∀ n, json_object_get_member members "segments" = some (Json.num n) →
        r.segments = ["Split 1"])) := by
  refine ⟨fun msg => rfl, fun msg => rfl, rfl, fun b => rfl, fun n => rfl,
    fun s => rfl, fun xs => rfl, fun members => ⟨_, rfl, ?_, ?_, ?_, ?_, ?_,
    ?_, ?_⟩⟩
  · simp only [run_load_json]
    split <;> exact seg_fallback_ne_nil _
  · rfl
  · rfl
  · intro hg
    simp [run_load_json, json_object_get_string_member_with_default, hg]
  · intro hc
    simp [run_load_json, json_object_get_string_member_with_default, hc]
  · intro hs
    simp [run_load_json, json_object_has_member, hs]
  · intro n hs
    simp [run_load_json, json_object_has_member, json_object_get_array_member,
      hs]

/-- Closed witness for `run_load_json_failure_modes`: the object
`{"segments": 5}` loads successfully with the default game and the fallback
segment list. -/
theorem run_load_json_failure_modes_witness :
    ∃ r, run_load_json (.parsed (Json.obj [("segments", Json.num 5)])) =
        .ok r ∧ r.segments = ["Split 1"] ∧ r.game = some "Game" := by
  obtain ⟨r, hok, hne, hgeq, hceq, hgnone, hcnone, hsnone, hsnum⟩ :=
    run_load_json_failure_modes.2.2.2.2.2.2.2 [("segments", Json.num 5)]
  exact ⟨r, hok, hsnum 5 rfl, hgnone rfl⟩

lemma elem_getD_eq_match (e : Json) :
    (json_array_get_string_element e).getD "" =
      (match e with | Json.str s => s | _ => "") := by
  cases e <;> rfl

/-- C9: serialising a run with `run_to_json_node` (the document `run_save_json`
writes) and loading the resulting document back through `run_load_json`
reproduces the original run's `game`, `category` and `segments` exactly,
whenever the run has at least one segment (and non-NULL metadata strings, the
only runs the data model admits).  The file write/read of
`json_generator_to_file` / `json_parser_load_from_file` is assumed to
round-trip the JSON document itself. -/
theorem save_then_load_roundtrip (r : LiveSpiffRun) (g c : String)
    (hg : r.game = some g) (hc : r.category = some c)
    (hne : r.segments ≠ []) :
    run_load_json (.parsed (run_to_json_node r)) = .ok r := by
  obtain ⟨og, oc, segs⟩ := r
  simp only at hg hc hne
  subst hg; subst hc
  simp [run_to_json_node, run_load_json, json_object_get_member,
    json_object_has_member, json_object_get_array_member,
    json_object_get_string_member_with_default, json_array_get_string_element,
    List.map_map, Function.comp, hne]
  exact (List.map_congr_left fun a _ => rfl).trans (List.map_id _)

/-- Closed witness for `save_then_load_roundtrip`: the default run
round-trips. -/
theorem save_then_load_roundtrip_witness :
    run_new_default.game = some "Game" ∧
    run_new_default.category = some "Any%" ∧
    run_new_default.segments ≠ [] ∧
    run_load_json (.parsed (run_to_json_node run_new_default)) =
      .ok run_new_default :=
  ⟨rfl, rfl, by decide,
    save_then_load_roundtrip run_new_default "Game" "Any%" rfl rfl
      (by decide)⟩

/-- C10: when the parsed object's `segments` member is an array, loading
succeeds whatever the element types are; a string element is kept and every
non-string element (null, boolean, number, array, object) is replaced by the
empty string, in order. -/
theorem segments_non_string_entries_become_empty
    (members : List (String × Json)) (xs : List Json)
    (h : json_object_get_member members "segments" = some (Json.arr xs))
    (hne : xs ≠ []) :
    run_load_json (.parsed (.obj members)) =
      .ok { game := json_object_get_string_member_with_default
              members "game" "Game"
          , category := json_object_get_string_member_with_default
              members "category" "Any%"
          , segments :=
              xs.map fun e => match e with | Json.str s => s | _ => "" } := by
  have hmap : (xs.map fun e => (json_array_get_string_element e).getD "") =
      xs.map fun e => match e with | Json.str s => s | _ => "" :=
    List.map_congr_left fun e _ => elem_getD_eq_match e
  have hmapne : (xs.map fun e => (json_array_get_string_element e).getD "") ≠
      [] := by
    simpa using hne
  simp [run_load_json, json_object_has_member, json_object_get_array_member,
    h, hmapne, hmap]
  exact fun h' => absurd h' hne

/-- Closed witness for `segments_non_string_entries_become_empty`: the array
`[null, 3, "a"]` becomes the segment list `["", "", "a"]`. -/
theorem segments_non_string_entries_become_empty_witness :
    json_object_get_member
        [("segments", Json.arr [Json.null, Json.num 3, Json.str "a"])]
        "segments" =
      some (Json.arr [Json.null, Json.num 3, Json.str "a"]) ∧
    run_load_json (.parsed (Json.obj
        [("segments", Json.arr [Json.null, Json.num 3, Json.str "a"])])) =
      .ok { game := some "Game", category := some "Any%"
          , segments := ["", "", "a"] } :=
  ⟨rfl, segments_non_string_entries_become_empty
    [("segments", Json.arr [Json.null, Json.num 3, Json.str "a"])]
    [Json.null, Json.num 3, Json.str "a"] rfl (by simp)⟩

/-- C1 counterexample: with 3 segments (the daemon's initial timer), calling
`StartOrSplit` exactly `segment_count` = 3 times from Idle leaves the timer
Running with split index 2, not Finished: the first call starts, so only 2
splits have happened.  The claim's "Finished after the final
(`segment_count`-th) call" is false. -/
theorem startOrSplit_count_counterexample :
    g_timer_init.state = .idle ∧ g_timer_init.split_count = 3 ∧
    (sosIter (fun _ => 0) g_timer_init 3).state = .running ∧
    (sosIter (fun _ => 0) g_timer_init 3).state ≠ .finished ∧
    (sosIter (fun _ => 0) g_timer_init 3).current_split = 2 ∧
    (sosIter (fun _ => 0) g_timer_init 4).state = .finished := by decide

/-- C1 amended: from Running, `startOrSplit` (= `timer_split`) increments the
split index; when the new index reaches `segment_count` it snapshots the
elapsed time into `frozen_elapsed` and moves to Finished, else stays Running;
no other operation enters Finished.  From Idle, `StartOrSplit` must be called
`segment_count + 1` times (one start plus `segment_count` splits): the state
is Running after each of the first `segment_count` calls and Finished after
the final call, with the split index never exceeding `segment_count`. -/
theorem startOrSplit_progression
    (t : Timer) (clock : Nat → Int) (n : Nat)
    (hidle : t.state = .idle) (hn : 1 ≤ n)
    (hcount : t.split_count = (n : Int)) :
    (∀ k : Nat, 1 ≤ k → k ≤ n →
        (sosIter clock t k).state = .running ∧
        (sosIter clock t k).current_split = (k : Int) - 1) ∧
    (sosIter clock t (n + 1)).state = .finished ∧
    (sosIter clock t (n + 1)).current_split = (n : Int) ∧
    (∀ (u : Timer) (now : Int), u.state = .running →
        (timer_split u now).current_split = u.current_split + 1 ∧
        (u.current_split + 1 < u.split_count →
          timer_split u now =
            { u with current_split := u.current_split + 1 }) ∧
        (u.current_split + 1 ≥ u.split_count →
          (timer_split u now).state = .finished ∧
          (timer_split u now).paused_elapsed_us =
            timer_elapsed_us
              { u with current_split := u.current_split + 1 } now)) ∧
    (∀ (u : Timer) (now : Int),
        (timer_start u now).state = .finished → u.state = .finished) ∧
    (∀ (u : Timer) (n1 n2 : Int),
        (timer_toggle_pause u n1 n2).state = .finished →
        u.state = .finished) ∧
    (∀ u : Timer, (timer_reset u).state ≠ .finished) ∧
    (∀ (u : Timer) (run : Option LiveSpiffRun),
        (apply_run_to_timer u run).state = u.state) ∧
    (∀ (u : Timer) (now : Int),
        (timer_start_or_split u now).state = .finished →
        u.state = .finished ∨
        (u.state = .running ∧ u.split_count ≤ u.current_split + 1)) := by
  obtain ⟨st, a1, a2, a3, a4, ac, asc⟩ := t
  simp only at hidle hcount
  subst hidle
  subst hcount
  refine ⟨?_, ?_, ?_, ?_, ?_, ?_, ?_, ?_, ?_⟩
  · intro k hk1 hk2
    cases k with
    | zero => exact absurd hk1 (by omega)
    | succ m =>
        rw [show sosIter clock (Timer.mk .idle a1 a2 a3 a4 ac ((n : Int)))
            (m + 1) =
          sosIter (fun i => clock (i + 1))
            (timer_start_or_split (Timer.mk .idle a1 a2 a3 a4 ac ((n : Int)))
              (clock 0)) m from rfl,
          timer_sos_idle _ _ rfl,
          timer_start_idle_mk a1 a2 a3 a4 ac ((n : Int)) (clock 0)]
        have H := sosIter_from_running m (fun i => clock (i + 1)) (clock 0)
          0 0 0 0 ((n : Int)) (by omega)
        refine ⟨?_, ?_⟩
        · rw [H.2.2, if_pos (by omega)]
        · rw [H.2.1]
          push_cast
          omega
  · rw [show sosIter clock (Timer.mk .idle a1 a2 a3 a4 ac ((n : Int)))
        (n + 1) =
      sosIter (fun i => clock (i + 1))
        (timer_start_or_split (Timer.mk .idle a1 a2 a3 a4 ac ((n : Int)))
          (clock 0)) n from rfl,
      timer_sos_idle _ _ rfl,
      timer_start_idle_mk a1 a2 a3 a4 ac ((n : Int)) (clock 0)]
    have H := sosIter_from_running n (fun i => clock (i + 1)) (clock 0)
      0 0 0 0 ((n : Int)) (by omega)
    rw [H.2.2, if_neg (by omega)]
  · rw [show sosIter clock (Timer.mk .idle a1 a2 a3 a4 ac ((n : Int)))
        (n + 1) =
      sosIter (fun i => clock (i + 1))
        (timer_start_or_split (Timer.mk .idle a1 a2 a3 a4 ac ((n : Int)))
          (clock 0)) n from rfl,
      timer_sos_idle _ _ rfl,
      timer_start_idle_mk a1 a2 a3 a4 ac ((n : Int)) (clock 0)]
    have H := sosIter_from_running n (fun i => clock (i + 1)) (clock 0)
      0 0 0 0 ((n : Int)) (by omega)
    rw [H.2.1]
    omega
  · intro u now hu
    obtain ⟨st, b1, b2, b3, b4, bc, bsc⟩ := u
    simp only at hu
    subst hu
    refine ⟨?_, ?_, ?_⟩
    · by_cases hb : bc + 1 < bsc
      · rw [timer_split_continue_mk b1 b2 b3 b4 bc bsc now hb]
      · rw [timer_split_finish_mk b1 b2 b3 b4 bc bsc now (by omega)]
    · intro hlt
      rw [timer_split_continue_mk b1 b2 b3 b4 bc bsc now (by simpa using hlt)]
    · intro hge
      rw [timer_split_finish_mk b1 b2 b3 b4 bc bsc now (by simpa using hge)]
      exact ⟨rfl, rfl⟩
  · intro u now h
    by_cases hi : u.state = .idle
    · rw [timer_start_idle _ _ hi] at h
      simp at h
    · rwa [timer_start_not_idle _ _ hi] at h
  · intro u n1 n2 h
    by_cases hr : u.state = .running
    · simp [timer_toggle_pause, hr] at h
    · by_cases hp : u.state = .paused
      · simp [timer_toggle_pause, hr, hp] at h
      · simpa [timer_toggle_pause, hr, hp] using h
  · intro u
    simp [timer_reset]
  · intro u run
    cases run <;> simp [apply_run_to_timer]
  · intro u now h
    by_cases hi : u.state = .idle
    · rw [timer_sos_idle _ _ hi, timer_start_idle _ _ hi] at h
      simp at h
    · by_cases hr : u.state = .running
      · refine Or.inr ⟨hr, ?_⟩
        by_cases hlt : u.current_split + 1 < u.split_count
        · rw [timer_sos_running _ _ hr, timer_split_continue _ _ hr hlt] at h
          simp at h
          exact absurd (hr.symm.trans h) (by simp)
        · omega
      · refine Or.inl ?_
        have heq : timer_start_or_split u now = u := by
          simp [timer_start_or_split, hi, hr]
        rwa [heq] at h

/-- Closed witness for `startOrSplit_progression`: with the daemon's initial
3-segment timer, the 4th `StartOrSplit` call finishes the run. -/
theorem startOrSplit_progression_witness :
    g_timer_init.state = .idle ∧ (1 : Nat) ≤ 3 ∧
    g_timer_init.split_count = ((3 : Nat) : Int) ∧
    (sosIter (fun _ => 0) g_timer_init (3 + 1)).state = .finished ∧
    (sosIter (fun _ => 0) g_timer_init (3 + 1)).current_split =
      ((3 : Nat) : Int) :=
  ⟨rfl, by omega, by decide,
    (startOrSplit_progression g_timer_init (fun _ => 0) 3 rfl (by omega)
      (by decide)).2.1,
    (startOrSplit_progression g_timer_init (fun _ => 0) 3 rfl (by omega)
      (by decide)).2.2.1⟩

/-- C2: over any strictly alternating Running→Paused→Running sequence of
`togglePause` calls with monotone clock reads, the elapsed time reported while
Running equals the monotonic time since the start instant minus the sum of the
completed pause-interval durations (exactly, in microseconds); pointwise,
`togglePause` from Running snapshots the elapsed time into `frozen_elapsed`
and records the pause instant, from Paused adds `now - pause instant` to the
accumulated pause duration, and is a no-op in Idle and Finished. -/
theorem togglePause_alternating_accounting
    (s1 s2 s3 s4 cs sc prev now : Int) (l : List (Int × Int × Int))
    (hchain : pauseChain prev l = true)
    (hbase : s1 + s3 ≤ prev)
    (hnow : chainEnd prev l ≤ now) :
    (applyPauses (Timer.mk .running s1 s2 s3 s4 cs sc) l).state = .running ∧
    timer_elapsed_us (applyPauses (Timer.mk .running s1 s2 s3 s4 cs sc) l)
        now =
      (now - s1) - (s3 + pauseSum l) ∧
    (∀ (u : Timer) (n1 n2 : Int), u.state = .running →
        timer_toggle_pause u n1 n2 =
          { u with
              paused_elapsed_us := timer_elapsed_us u n1
            , paused_at_us := n2
            , state := .paused }) ∧
    (∀ (u : Timer) (n1 n2 : Int), u.state = .paused →
        timer_toggle_pause u n1 n2 =
          { u with
              total_paused_us := u.total_paused_us + (n1 - u.paused_at_us)
            , paused_at_us := 0
            , state := .running }) ∧
    (∀ (u : Timer) (n1 n2 : Int), u.state = .idle ∨ u.state = .finished →
        timer_toggle_pause u n1 n2 = u) := by
  obtain ⟨s2', s4', heq, hend⟩ :=
    applyPauses_accounting l s1 s2 s3 s4 cs sc prev hchain hbase
  refine ⟨?_, ?_, ?_, ?_, ?_⟩
  · rw [heq]
  · rw [heq]
    simp only [timer_elapsed_us]
    omega
  · intro u n1 n2 hu
    simp [timer_toggle_pause, hu]
  · intro u n1 n2 hu
    simp [timer_toggle_pause, hu]
  · intro u n1 n2 hu
    rcases hu with hu | hu <;> simp [timer_toggle_pause, hu]

/-- Closed witness for `togglePause_alternating_accounting`: one pause of
10 µs (from 10 to 20) inside a run started at 0, observed at 50, reports
40 µs. -/
theorem togglePause_alternating_accounting_witness :
    pauseChain 0 [(10, 10, 20)] = true ∧
    (0 : Int) + 0 ≤ 0 ∧
    chainEnd 0 [(10, 10, 20)] ≤ 50 ∧
    (applyPauses (Timer.mk .running 0 0 0 0 0 3) [(10, 10, 20)]).state =
      .running ∧
    timer_elapsed_us (applyPauses (Timer.mk .running 0 0 0 0 0 3)
        [(10, 10, 20)]) 50 =
      (50 - 0) - (0 + pauseSum [(10, 10, 20)]) :=
  ⟨by decide, by decide, by decide,
    (togglePause_alternating_accounting 0 0 0 0 0 3 0 50 [(10, 10, 20)]
      (by decide) (by decide) (by decide)).1,
    (togglePause_alternating_accounting 0 0 0 0 0 3 0 50 [(10, 10, 20)]
      (by decide) (by decide) (by decide)).2.1⟩

/-- C7 counterexample: the bare invariant `0 ≤ current_split ≤ split_count`
is not preserved by `startOrSplit`: the (daemon-unreachable) state Running
with `current_split = split_count = 1` satisfies it, yet one `startOrSplit`
drives `current_split` to 2 > `split_count`. -/
theorem timer_invariant_not_inductive :
    0 ≤ (Timer.mk .running 0 0 0 0 1 1).current_split ∧
    (Timer.mk .running 0 0 0 0 1 1).current_split ≤
      (Timer.mk .running 0 0 0 0 1 1).split_count ∧
    0 ≤ timer_elapsed_us (Timer.mk .running 0 0 0 0 1 1) 0 ∧
    ¬ ((timer_start_or_split (Timer.mk .running 0 0 0 0 1 1) 0).current_split
        ≤ (timer_start_or_split (Timer.mk .running 0 0 0 0 1 1) 0).split_count)
    := by decide

/-- C7 amended: the claimed invariant `0 ≤ current_split ≤ split_count` with
non-negative elapsed time holds in the initial daemon state and is preserved
by every operation once strengthened to the inductive `TimerInv` (adding
`1 ≤ split_count`, `0 ≤ frozen_elapsed`, and `current_split < split_count`
while Running or Paused); the daemon's reload side effect is
`apply_run_to_timer` followed by the forced `timer_reset`. -/
theorem timer_invariant_preserved :
    TimerInv daemon_init.timer ∧
    (∀ (t : Timer) (now : Int), TimerInv t →
      TimerInv (timer_start_or_split t now)) ∧
    (∀ (t : Timer) (n1 n2 : Int), TimerInv t →
      TimerInv (timer_toggle_pause t n1 n2)) ∧
    (∀ t : Timer, TimerInv t → TimerInv (timer_reset t)) ∧
    (∀ (t : Timer) (r : LiveSpiffRun), TimerInv t →
      TimerInv (timer_reset (apply_run_to_timer t (some r)))) ∧
    (∀ (t : Timer) (now : Int), TimerInv t →
      0 ≤ timer_elapsed_us t now) ∧
    (∀ t : Timer, TimerInv t →
      0 ≤ t.current_split ∧ t.current_split ≤ t.split_count) := by
  refine ⟨?_, ?_, ?_, ?_, ?_, ?_, ?_⟩
  · unfold TimerInv
    decide
  · intro t now h
    obtain ⟨st, s1, s2, s3, s4, cs, sc⟩ := t
    obtain ⟨h1, h2, h3, h4, h5⟩ := h
    simp only at h1 h2 h3 h4 h5
    cases st with
    | idle =>
        rw [timer_sos_idle _ _ rfl, timer_start_idle_mk]
        simp [TimerInv]
        omega
    | running =>
        have h5' : cs < sc := h5 (Or.inl rfl)
        rw [timer_sos_running _ _ rfl]
        by_cases hlt : cs + 1 < sc
        · rw [timer_split_continue_mk s1 s2 s3 s4 cs sc now hlt]
          simp [TimerInv]
          omega
        · rw [timer_split_finish_mk s1 s2 s3 s4 cs sc now (by omega)]
          simp [TimerInv]
          omega
    | paused =>
        have hsame : timer_start_or_split
            (Timer.mk .paused s1 s2 s3 s4 cs sc) now =
            Timer.mk .paused s1 s2 s3 s4 cs sc := by
          simp [timer_start_or_split]
        rw [hsame]
        exact ⟨h1, h2, h3, h4, h5⟩
    | finished =>
        have hsame : timer_start_or_split
            (Timer.mk .finished s1 s2 s3 s4 cs sc) now =
            Timer.mk .finished s1 s2 s3 s4 cs sc := by
          simp [timer_start_or_split]
        rw [hsame]
        exact ⟨h1, h2, h3, h4, h5⟩
  · intro t n1 n2 h
    obtain ⟨st, s1, s2, s3, s4, cs, sc⟩ := t
    obtain ⟨h1, h2, h3, h4, h5⟩ := h
    simp only at h1 h2 h3 h4 h5
    cases st with
    | running =>
        have h5' : cs < sc := h5 (Or.inl rfl)
        rw [timer_toggle_pause_running_mk]
        simp [TimerInv]
        omega
    | paused =>
        have h5' : cs < sc := h5 (Or.inr rfl)
        rw [timer_toggle_pause_paused_mk]
        simp [TimerInv]
        omega
    | idle =>
        have hsame : timer_toggle_pause
            (Timer.mk .idle s1 s2 s3 s4 cs sc) n1 n2 =
            Timer.mk .idle s1 s2 s3 s4 cs sc := by
          simp [timer_toggle_pause]
        rw [hsame]
        exact ⟨h1, h2, h3, h4, h5⟩
    | finished =>
        have hsame : timer_toggle_pause
            (Timer.mk .finished s1 s2 s3 s4 cs sc) n1 n2 =
            Timer.mk .finished s1 s2 s3 s4 cs sc := by
          simp [timer_toggle_pause]
        rw [hsame]
        exact ⟨h1, h2, h3, h4, h5⟩
  · intro t h
    obtain ⟨st, s1, s2, s3, s4, cs, sc⟩ := t
    obtain ⟨h1, h2, h3, h4, h5⟩ := h
    simp only at h1 h2 h3 h4 h5
    simp [timer_reset, TimerInv]
    omega
  · intro t r h
    obtain ⟨st, s1, s2, s3, s4, cs, sc⟩ := t
    obtain ⟨h1, h2, h3, h4, h5⟩ := h
    simp only at h1 h2 h3 h4 h5
    simp [apply_run_to_timer, timer_reset, TimerInv]
    split_ifs with hseg
    · omega
    · have hpos : 0 < r.segments.length := List.length_pos.mpr hseg
      omega
  · intro t now h
    obtain ⟨st, s1, s2, s3, s4, cs, sc⟩ := t
    obtain ⟨h1, h2, h3, h4, h5⟩ := h
    simp only at h1 h2 h3 h4 h5
    cases st <;> simp [timer_elapsed_us] <;> omega
  · intro t h
    exact ⟨h.2.1, h.2.2.1⟩

/-- Closed witness for `timer_invariant_preserved`: the strengthened
invariant holds at a concrete Running timer and survives a `startOrSplit`
and an elapsed query. -/
theorem timer_invariant_preserved_witness :
    TimerInv (Timer.mk .running 0 0 0 0 0 2) ∧
    TimerInv (timer_start_or_split (Timer.mk .running 0 0 0 0 0 2) 5) ∧
    0 ≤ timer_elapsed_us (Timer.mk .running 0 0 0 0 0 2) 5 :=
  ⟨by unfold TimerInv; decide,
    timer_invariant_preserved.2.1 (Timer.mk .running 0 0 0 0 0 2) 5
      (by unfold TimerInv; decide),
    timer_invariant_preserved.2.2.2.2.2.1 (Timer.mk .running 0 0 0 0 0 2) 5
      (by unfold TimerInv; decide)⟩

end LiveSpiff
